import Mathlib

/-!
# Verification of the content-index bot (`bot-tele-site.py`)

Shallow embedding of the persistence core of the repository's single source
file: the Daily Record Store (`save_single_news` / `load_json_list`), the
Manifest Builder (`update_month_manifest` / `update_year_manifest`), the
Global Paginated Index (`gi_append_records` and friends), the fingerprint
marker files (`read_text_file` / `write_text_file`), and the per-run
orchestrator (`run`, `send_crunchyroll_one`, `send_youtube_latest_if_new`).

External collaborators (feed parsing, image processing, Telegram delivery,
HTTP upload) are modelled by their outcomes only: an `Entry` is the data the
extraction helpers produce from a feed item, and the environment `RunEnv`
records whether each outbound call succeeds.  File contents are modelled by
their parsed value plus explicit `absent` / `unparseable` states, matching
the source's "treat unreadable as empty" loaders.
-/

namespace BotSite

/-! ## Python `str.strip()`

`stripL` drops leading whitespace characters from a character list;
`stripChars` drops both ends, and `pyStrip` is the string-level wrapper.
This models Python's `str.strip()` (restricted to ASCII-style whitespace,
which is all the source ever produces). -/

def stripL : List Char → List Char
  | [] => []
  | c :: cs => if c.isWhitespace then stripL cs else c :: cs

def stripR (cs : List Char) : List Char :=
  (stripL cs.reverse).reverse

def stripChars (cs : List Char) : List Char :=
  stripR (stripL cs)

def pyStrip (s : String) : String :=
  ⟨stripChars s.data⟩

/-! ## JSON list files and the loaders (`load_json_list`, text markers)

A JSON file that is supposed to hold a list is either absent, unreadable /
unparseable, parseable but not a list, or a stored list.  `load_json_list`
returns `[]` in all but the last case, exactly as the Python function does. -/

inductive JFile (α : Type) where
  | absent
  | unparseable
  | notAList
  | stored (l : List α)
deriving DecidableEq, Repr

def load_json_list {α : Type} : JFile α → List α
  | .stored l => l
  | _ => []

/-- Model of `write_text_file` followed by `read_text_file` on the same
marker file: `write_text_file` stores `value.strip() + "\n"`, and
`read_text_file` strips the content and turns the empty string into `None`.
So the read-back view of a marker file written with `v` is `pyStrip v`,
or absent when that is empty.  (Marker-file fields of `World` below hold
this read-back view.) -/
def write_text_file_model (v : String) : Option String :=
  if pyStrip v = "" then none else some (pyStrip v)

/-! ## Data model: daily records, entries, slim records -/

/-- A record stored in a Daily File (a JSON object; fields may be `null`
or missing, which both read back as `none`).  `build_daily_record` always
populates every field. -/
structure DailyRecord where
  title : Option String
  description_full : Option String
  image : Option String
  categories : Option (List String)
deriving DecidableEq, Repr

/-- A feed entry after the extraction helpers have run: `title` is
`getattr(entry, "title", "") or ""`, `description_full` is
`extract_full_text(entry)`, `image` is `extract_image(entry)` and
`categories` is `extract_categories(entry)`. -/
structure Entry where
  title : String
  description_full : String
  image : Option String
  categories : List String
deriving DecidableEq, Repr

/-- `build_daily_record`: the dict `{title, description_full, image, categories}`. -/
def build_daily_record (e : Entry) : DailyRecord :=
  { title := some e.title
    description_full := some e.description_full
    image := e.image
    categories := some e.categories }

/-- `get_entry_identity`: `f"{title.strip()}|{(image or '').strip()}"`. -/
def get_entry_identity (e : Entry) : String :=
  pyStrip e.title ++ "|" ++ pyStrip (e.image.getD "")

/-- The per-record dedup key used by `save_single_news` on stored records:
`f"{(x.get('title') or '').strip()}|{(x.get('image') or '').strip()}"`. -/
def record_fp (x : DailyRecord) : String :=
  pyStrip (x.title.getD "") ++ "|" ++ pyStrip (x.image.getD "")

/-- A slim record of the Global Paginated Index, as produced by
`convert_full_to_slim`. -/
structure SlimRecord where
  title : Option String
  image : Option String
  categories : List String
  path : Option String
deriving DecidableEq, Repr

/-! ## Dates and paths -/

structure Date where
  year : Nat
  month : Nat
  day : Nat
deriving DecidableEq, Repr

/-- Python's `f"{n:02d}"` for the small nonnegative values used here. -/
def pad2 (n : Nat) : String :=
  if n < 10 then "0" ++ toString n else toString n

/-- The file name of a Daily File: `f"{d:02d}-{m:02d}.json"`. -/
def dayFileName (dt : Date) : String :=
  pad2 dt.day ++ "-" ++ pad2 dt.month ++ ".json"

/-- `str(daily_path(dt))`: `data/<year>/<month:02d>/<day:02d>-<month:02d>.json`. -/
def dailyPathString (dt : Date) : String :=
  "data/" ++ toString dt.year ++ "/" ++ pad2 dt.month ++ "/" ++ dayFileName dt

/-- Posix path of the month directory `data/<year>/<month:02d>`. -/
def monthDirString (dt : Date) : String :=
  "data/" ++ toString dt.year ++ "/" ++ pad2 dt.month

/-! ## Daily Record Store: `save_single_news` -/

/-- `save_single_news(entry)` against today's Daily File.  Returns the pair
the Python function returns, `(record_or_none, str(day_path))`, together
with the resulting state of the day file (written only on append). -/
def save_single_news (today : Date) (file : JFile DailyRecord) (e : Entry) :
    (Option DailyRecord × String) × JFile DailyRecord :=
  let path := dailyPathString today
  let existing := load_json_list file
  let fp := get_entry_identity e
  if existing.any (fun x => record_fp x == fp) then
    ((none, path), file)
  else
    let r := build_daily_record e
    ((some r, path), JFile.stored (existing ++ [r]))

/-! ## Manifest Builder -/

/-- Insertion into a Python dict: overwrite in place if the key exists,
otherwise append (insertion order preserved). -/
def assocSet (m : List (String × String)) (k v : String) : List (String × String) :=
  match m with
  | [] => [(k, v)]
  | (k', v') :: rest => if k' = k then (k, v) :: rest else (k', v') :: assocSet rest k v

/-- Python string comparison: lexicographic by code point. -/
def charListLt : List Char → List Char → Bool
  | _, [] => false
  | [], _ :: _ => true
  | a :: as, b :: bs =>
    if a.toNat < b.toNat then true
    else if b.toNat < a.toNat then false
    else charListLt as bs

def strLt (a b : String) : Bool :=
  charListLt a.data b.data

/-- Ascending insertion of a string into a sorted list (models Python
`sorted` on the glob results; Path comparison within one directory is
name comparison). -/
def insertAsc (x : String) : List String → List String
  | [] => [x]
  | y :: ys => if strLt y x then y :: insertAsc x ys else x :: y :: ys

def sortAsc (l : List String) : List String :=
  l.foldr insertAsc []

/-- Descending insertion by key (models `sorted(days.items(), key=kv[0],
reverse=True)`; keys are unique because they come from a dict). -/
def insertDesc (x : String × String) : List (String × String) → List (String × String)
  | [] => [x]
  | y :: ys => if strLt x.1 y.1 then y :: insertDesc x ys else x :: y :: ys

def sortDesc (l : List (String × String)) : List (String × String) :=
  l.foldr insertDesc []

/-- The fnmatch pattern `*.json`: the name ends with `.json`. -/
def isJsonName (n : String) : Bool :=
  match n.data.reverse with
  | 'n' :: 'o' :: 's' :: 'j' :: '.' :: _ => true
  | _ => false

/-- `Path.stem` for the names that survive the `*.json` glob filter:
the name without its `.json` suffix. -/
def stemOf (name : String) : String :=
  ⟨name.data.take (name.data.length - 5)⟩

/-- `day_key.split("-")[0]` where `day_key = p.stem`: the prefix of the
stem up to the first `-` (the whole stem when there is none). -/
def dayKeyOf (name : String) : String :=
  ⟨(stemOf name).data.takeWhile (fun c => c != '-')⟩

structure MonthManifest where
  year : String
  month : String
  days : List (String × String)
deriving DecidableEq, Repr

structure YearManifest where
  year : String
  months : List (String × String)
deriving DecidableEq, Repr

/-- The files `update_month_manifest` iterates over: the sorted `*.json`
entries of the month directory minus the manifest itself. -/
def monthGlob (listing : List String) : List String :=
  (sortAsc listing).filter (fun n => isJsonName n && n != "month_manifest.json")

/-- `update_month_manifest(dt)` as a function of the month directory's
listing: build the day→path dict in glob order, then sort the items
descending by key. -/
def update_month_manifest (dt : Date) (listing : List String) : MonthManifest :=
  let days := (monthGlob listing).foldl
    (fun m p => assocSet m (dayKeyOf p) (monthDirString dt ++ "/" ++ p)) []
  { year := toString dt.year
    month := pad2 dt.month
    days := sortDesc days }

/-- The fnmatch pattern `[0-1][0-9]`: exactly two characters, the first
`0` or `1`, the second a digit. -/
def matchesMonthPat (s : String) : Bool :=
  match s.data with
  | [c0, c1] => (c0 == '0' || c0 == '1') && c1.isDigit
  | _ => false

/-- `update_year_manifest(dt)` as a function of the year directory's
subdirectory listing. -/
def update_year_manifest (dt : Date) (dirs : List String) : YearManifest :=
  let months := ((sortAsc dirs).filter matchesMonthPat).foldl
    (fun m p => assocSet m p ("data/" ++ toString dt.year ++ "/" ++ p ++ "/month_manifest.json")) []
  { year := toString dt.year
    months := sortDesc months }

/-! ## Global Paginated Index -/

def GLOBAL_PAGE_SIZE : Nat := 500

/-- The parsed content of `pagination.json`. -/
structure Pagination where
  total_articles : Nat
  files : List String
deriving DecidableEq, Repr

/-- The content of `stats.json`. -/
structure Stats where
  total_articles : Nat
  added_today : Nat
  last_update : String
deriving DecidableEq, Repr

inductive PagFile where
  | absent
  | unparseable
  | stored (p : Pagination)
deriving DecidableEq, Repr

/-- `gi_load_pagination`: default `{"total_articles": 0, "files": []}` when
the file is absent or unparseable. -/
def gi_load_pagination : PagFile → Pagination
  | .stored p => p
  | _ => { total_articles := 0, files := [] }

/-- Read a file from the `global_index` directory (assoc-list file system;
a missing name reads as an absent file). -/
def fsRead {α : Type} (fs : List (String × JFile α)) (name : String) : JFile α :=
  match fs with
  | [] => .absent
  | (n, c) :: rest => if n = name then c else fsRead rest name

/-- Overwrite-or-create a file in the assoc-list file system. -/
def fsWrite {α : Type} (fs : List (String × JFile α)) (name : String) (content : JFile α) :
    List (String × JFile α) :=
  match fs with
  | [] => [(name, content)]
  | (n, c) :: rest =>
      if n = name then (name, content) :: rest else (n, c) :: fsWrite rest name content

/-- The on-disk state of the `global_index` directory. -/
structure GIState where
  pagFile : PagFile
  pages : List (String × JFile SlimRecord)
  statsFile : Option Stats
deriving DecidableEq, Repr

def giEmpty : GIState :=
  { pagFile := .absent, pages := [], statsFile := none }

/-- `f"index_{n}.json"`. -/
def pageName (n : Nat) : String :=
  "index_" ++ toString n ++ ".json"

/-- The I/O operations `gi_append_records` performs, in order. -/
inductive GIEvent where
  | loadPagination
  | loadPage (name : String)
  | savePage (name : String) (content : List SlimRecord)
  | savePagination (p : Pagination)
  | saveStats (total added : Nat)
deriving DecidableEq, Repr

/-- `gi_append_records(new_records)`: early return on an empty batch;
otherwise load the descriptor, create page 1 if no page is registered,
load the last registered page, rotate if it is already at or above
`GLOBAL_PAGE_SIZE`, append the whole batch to the (possibly fresh) page,
and persist page, descriptor and stats.  `now` is `now_local().isoformat()`.
Returns the new directory state and the trace of file operations. -/
def gi_append_records (st : GIState) (new_records : List SlimRecord) (now : String) :
    GIState × List GIEvent :=
  match new_records with
  | [] => (st, [])
  | _ =>
    let pag0 := gi_load_pagination st.pagFile
    let createFirst := pag0.files.isEmpty
    let pages0 := if createFirst then fsWrite st.pages "index_1.json" (.stored []) else st.pages
    let pag1 := if createFirst then { pag0 with files := ["index_1.json"] } else pag0
    let cur0 := pag1.files.getLast?.getD ""
    let items0 := load_json_list (fsRead pages0 cur0)
    let rotate := GLOBAL_PAGE_SIZE ≤ items0.length
    let cur1 := if rotate then pageName (pag1.files.length + 1) else cur0
    let pages1 := if rotate then fsWrite pages0 cur1 (.stored []) else pages0
    let pag2 := if rotate then { pag1 with files := pag1.files ++ [cur1] } else pag1
    let items1 := if rotate then [] else items0
    let items2 := items1 ++ new_records
    let pages2 := fsWrite pages1 cur1 (.stored items2)
    let total := pag2.total_articles + new_records.length
    let pag3 := { pag2 with total_articles := total }
    ({ pagFile := .stored pag3
       pages := pages2
       statsFile := some { total_articles := total, added_today := new_records.length, last_update := now } },
     [GIEvent.loadPagination]
       ++ (if createFirst then [GIEvent.savePage "index_1.json" []] else [])
       ++ [GIEvent.loadPage cur0]
       ++ (if rotate then [GIEvent.savePage cur1 []] else [])
       ++ [GIEvent.savePage cur1 items2, GIEvent.savePagination pag3,
           GIEvent.saveStats total new_records.length])

/-- `convert_full_to_slim(records, source_path)`: one slim record per input
record, with reference `f"{source_path}#{i}"` where `i` enumerates the
*passed batch* (and `None` when `source_path` is falsy). -/
def convert_full_to_slim (records : List DailyRecord) (source_path : Option String) :
    List SlimRecord :=
  records.enum.map (fun p =>
    { title := p.2.title
      image := p.2.image
      categories := p.2.categories.getD []
      path :=
        match source_path with
        | some sp => if sp = "" then none else some (sp ++ "#" ++ toString p.1)
        | none => none })

/-! ## Orchestrator: senders and `run` -/

/-- A YouTube feed entry reduced to what affects persistent state:
`vid = getattr(entry, "yt_videoid", None) or getattr(entry, "id", None) or ""`.
(Title, link and thumbnail only shape the outgoing message.) -/
structure YTEntry where
  vid : String
deriving DecidableEq, Repr

/-- Whether `send_crunchyroll_one` finishes without an uncaught exception.
The photo branch (taken when the record's image URL is truthy) is wrapped
in `try/except` and returns on success; on photo failure control falls
through to the *unguarded* `bot.send_message`, which is also the direct
path when there is no image.  `photoOk` / `msgOk` are the outcomes of those
two Telegram calls. -/
def send_crunchyroll_one_ok (e : Entry) (photoOk msgOk : Bool) : Bool :=
  if e.image.getD "" ≠ "" then (if photoOk then true else msgOk) else msgOk

/-- The `if last_fp and fp == last_fp` short-circuit of `run` (the stored
marker is truthy and equals the latest item's identity). -/
def crunchSkip (lastFp : Option String) (fp : String) : Bool :=
  match lastFp with
  | none => false
  | some s => !(s == "") && fp == s

/-- The `if last_vid and vid and vid == last_vid` short-circuit of
`send_youtube_latest_if_new`. -/
def ytSkip (lastVid : Option String) (vid : String) : Bool :=
  match lastVid with
  | none => false
  | some s => !(s == "") && !(vid == "") && vid == s

/-- All persistent state a run can touch: the two marker files (read-back
view), today's Daily File, the month directory listing and the year
directory's subdirectory listing (manifests are rebuilt from these), the
two manifest files, and the `global_index` directory. -/
structure World where
  crunFpFile : Option String
  ytIdFile : Option String
  dayFile : JFile DailyRecord
  monthFiles : List String
  yearDirs : List String
  monthManifestFile : Option MonthManifest
  yearManifestFile : Option YearManifest
  gi : GIState
deriving DecidableEq, Repr

/-- One run's environment: the current date and timestamp, the parsed
feeds, whether the mandatory Telegram configuration is present, and the
outcome of each outbound network call (the upload result is ignored by the
caller, so it cannot influence state; it is kept to make that explicit). -/
structure RunEnv where
  configOk : Bool
  today : Date
  now : String
  newsFeed : List Entry
  photoOk : Bool
  msgOk : Bool
  uploadOk : Bool
  ytFeed : List YTEntry
  ytSendOk : Bool
deriving DecidableEq, Repr

def addIfAbsent (l : List String) (x : String) : List String :=
  if x ∈ l then l else l ++ [x]

/-- `send_youtube_latest_if_new`: process only the latest video; skip when
it matches the stored id; on a send failure log and return *without*
writing the id; otherwise write the id. -/
def send_youtube_latest_if_new (w : World) (env : RunEnv) : World :=
  match env.ytFeed with
  | [] => w
  | entry :: _ =>
    if ytSkip w.ytIdFile entry.vid then w
    else if env.ytSendOk then { w with ytIdFile := write_text_file_model entry.vid } else w

/-- The Crunchyroll half of `run` (lines 561–607).  Returns the world after
this section together with an abort flag: `true` when an uncaught exception
(the unguarded `bot.send_message`) ends the whole run before the remaining
steps.  `daily_path` creates `data/<y>/<mm>` as a side effect of being
called, which registers the month directory in the year listing; a fresh
day file registers its name in the month listing; `update_month_manifest`
writes `month_manifest.json` into the month directory. -/
def crunchSection (w : World) (env : RunEnv) : World × Bool :=
  match env.newsFeed with
  | [] => (w, false)
  | latest :: _ =>
    let fp := get_entry_identity latest
    if crunchSkip w.crunFpFile fp then (w, false)
    else
      let saved := save_single_news env.today w.dayFile latest
      match saved.1.1 with
      | none =>
          ({ w with
              crunFpFile := write_text_file_model fp
              yearDirs := addIfAbsent w.yearDirs (pad2 env.today.month) }, false)
      | some r =>
          let w1 : World :=
            { w with
                dayFile := saved.2
                monthFiles := addIfAbsent w.monthFiles (dayFileName env.today)
                yearDirs := addIfAbsent w.yearDirs (pad2 env.today.month) }
          if send_crunchyroll_one_ok latest env.photoOk env.msgOk then
            let mm := update_month_manifest env.today w1.monthFiles
            let w2 : World :=
              { w1 with
                  monthManifestFile := some mm
                  monthFiles := addIfAbsent w1.monthFiles "month_manifest.json" }
            let ym := update_year_manifest env.today w2.yearDirs
            let w3 : World := { w2 with yearManifestFile := some ym }
            let slim := convert_full_to_slim [r] (some saved.1.2)
            let w4 : World := { w3 with gi := (gi_append_records w3.gi slim env.now).1 }
            ({ w4 with crunFpFile := write_text_file_model fp }, false)
          else (w1, true)

/-- `run()`: bail out when the Telegram configuration is missing; otherwise
the Crunchyroll section, then (unless it aborted the process) the YouTube
section. -/
def run (w : World) (env : RunEnv) : World :=
  if env.configOk then
    let r := crunchSection w env
    if r.2 then r.1 else send_youtube_latest_if_new r.1 env
  else w

/-! ## Scenario harness and concrete instances

`gi_fold_singles` drives the rotation scenario of the spec's testable
properties: a sequence of `gi_append_records` calls of one slim record
each (production always appends singleton batches). -/

def gi_fold_singles (now : String) (recs : List SlimRecord) : GIState :=
  recs.foldl (fun s r => (gi_append_records s [r] now).1) giEmpty

def sampleSlim : SlimRecord :=
  { title := some "t", image := none, categories := [], path := none }

def entryA : Entry :=
  { title := "A", description_full := "dA", image := some "http://x/1.png", categories := [] }

def entryB : Entry :=
  { title := "B", description_full := "dB", image := some "http://x/2.png", categories := ["news"] }

/-- A world whose Daily File for 2025-03-05 already holds one record (the
one built from `entryA`). -/
def c1World : World :=
  { crunFpFile := none
    ytIdFile := none
    dayFile := JFile.stored [build_daily_record entryA]
    monthFiles := ["05-03.json"]
    yearDirs := ["03"]
    monthManifestFile := none
    yearManifestFile := none
    gi := giEmpty }

/-- A fully successful run on 2025-03-05 whose news feed offers `entryB`. -/
def c1Env : RunEnv :=
  { configOk := true
    today := ⟨2025, 3, 5⟩
    now := "T"
    newsFeed := [entryB]
    photoOk := true
    msgOk := true
    uploadOk := true
    ytFeed := []
    ytSendOk := true }

/-- An empty world: no marker, no Daily File, no index. -/
def cxWorld : World :=
  { crunFpFile := none
    ytIdFile := none
    dayFile := JFile.absent
    monthFiles := []
    yearDirs := []
    monthManifestFile := none
    yearManifestFile := none
    gi := giEmpty }

/-- A news entry with no image: the notification goes straight to the
unguarded `bot.send_message`. -/
def cxEntry : Entry :=
  { title := "A", description_full := "d", image := none, categories := [] }

/-- A run in which the text-message send raises. -/
def cxEnv : RunEnv :=
  { configOk := true
    today := ⟨2025, 3, 5⟩
    now := "T"
    newsFeed := [cxEntry]
    photoOk := true
    msgOk := false
    uploadOk := true
    ytFeed := []
    ytSendOk := true }

/-- A world with a Daily File already containing `entryA`'s record but no
fingerprint marker (so the run reaches the Daily Store dedup check). -/
def dupWorld : World :=
  { crunFpFile := none
    ytIdFile := none
    dayFile := JFile.stored [build_daily_record entryA]
    monthFiles := ["05-03.json"]
    yearDirs := ["03"]
    monthManifestFile := none
    yearManifestFile := none
    gi := giEmpty }

/-- A run offering `entryA` again (a duplicate of today's stored record). -/
def dupEnv : RunEnv :=
  { configOk := true
    today := ⟨2025, 3, 5⟩
    now := "T"
    newsFeed := [entryA]
    photoOk := false
    msgOk := false
    uploadOk := false
    ytFeed := []
    ytSendOk := false }

/-- A world whose markers already match the latest items of both feeds of
`skipEnv`. -/
def skipWorld : World :=
  { crunFpFile := some "A|http://x/1.png"
    ytIdFile := some "vid1"
    dayFile := JFile.stored [build_daily_record entryA]
    monthFiles := ["05-03.json"]
    yearDirs := ["03"]
    monthManifestFile := none
    yearManifestFile := none
    gi := giEmpty }

def skipEnv : RunEnv :=
  { configOk := true
    today := ⟨2025, 3, 5⟩
    now := "T"
    newsFeed := [entryA]
    photoOk := true
    msgOk := true
    uploadOk := true
    ytFeed := [⟨"vid1"⟩]
    ytSendOk := true }

/-- A `global_index` state with one registered page holding three items. -/
def giThree : GIState :=
  { pagFile := .stored { total_articles := 3, files := ["index_1.json"] }
    pages := [("index_1.json", JFile.stored [sampleSlim, sampleSlim, sampleSlim])]
    statsFile := none }

/-! # Lemmas -/

/-! ## Stripping -/

theorem stripL_cons_not (c : Char) (cs : List Char) (h : c.isWhitespace = false) :
    stripL (c :: cs) = c :: cs := by
  simp [stripL, h]

theorem stripL_head_not (cs : List Char) :
    ∀ c t, stripL cs = c :: t → c.isWhitespace = false := by
  induction cs with
  | nil => intro c t h; simp [stripL] at h
  | cons a as ih =>
    intro c t h
    rw [stripL] at h
    by_cases ha : a.isWhitespace = true
    · rw [if_pos ha] at h
      exact ih c t h
    · rw [if_neg ha] at h
      injection h with h1 h2
      subst h1
      simpa using ha

theorem stripL_fixed_of_noLead (l : List Char)
    (h : ∀ c t, l = c :: t → c.isWhitespace = false) : stripL l = l := by
  cases hl : l with
  | nil => rfl
  | cons c t => exact stripL_cons_not c t (h c t hl)

theorem stripL_drops (cs : List Char) : ∃ d, cs = d ++ stripL cs := by
  induction cs with
  | nil => exact ⟨[], rfl⟩
  | cons a as ih =>
    by_cases ha : a.isWhitespace = true
    · obtain ⟨d, hd⟩ := ih
      refine ⟨a :: d, ?_⟩
      rw [stripL, if_pos ha, List.cons_append]
      exact congrArg (a :: ·) hd
    · refine ⟨[], ?_⟩
      rw [stripL, if_neg ha, List.nil_append]

theorem stripR_eats_tail (l : List Char) : ∃ m, l = stripR l ++ m := by
  obtain ⟨d, hd⟩ := stripL_drops l.reverse
  refine ⟨d.reverse, ?_⟩
  have h2 := congrArg List.reverse hd
  simpa [stripR] using h2

theorem noLead_stripR (l : List Char)
    (h : ∀ c t, l = c :: t → c.isWhitespace = false) :
    ∀ c t, stripR l = c :: t → c.isWhitespace = false := by
  intro c t hct
  obtain ⟨m, hm⟩ := stripR_eats_tail l
  exact h c (t ++ m) (by rw [hm, hct, List.cons_append])

theorem noLead_stripChars (l : List Char) :
    ∀ c t, stripChars l = c :: t → c.isWhitespace = false :=
  noLead_stripR (stripL l) (fun c t h => stripL_head_not l c t h)

theorem reverse_stripChars (l : List Char) :
    (stripChars l).reverse = stripL (stripL l).reverse := by
  simp [stripChars, stripR]

theorem noLead_reverse_stripChars (l : List Char) :
    ∀ c t, (stripChars l).reverse = c :: t → c.isWhitespace = false := by
  intro c t h
  rw [reverse_stripChars] at h
  exact stripL_head_not (stripL l).reverse c t h

theorem noLead_concat (x y : List Char)
    (hx : ∀ c t, x = c :: t → c.isWhitespace = false) :
    ∀ c t, x ++ '|' :: y = c :: t → c.isWhitespace = false := by
  intro c t h
  cases hxc : x with
  | nil =>
    rw [hxc, List.nil_append] at h
    injection h with h1 _
    subst h1
    decide
  | cons a as =>
    rw [hxc, List.cons_append] at h
    injection h with h1 _
    rw [← h1]
    exact hx a as hxc

theorem stripChars_concat (a b : List Char) :
    stripChars (stripChars a ++ '|' :: stripChars b)
      = stripChars a ++ '|' :: stripChars b := by
  have h1 : stripL (stripChars a ++ '|' :: stripChars b)
      = stripChars a ++ '|' :: stripChars b :=
    stripL_fixed_of_noLead _ (noLead_concat _ _ (noLead_stripChars a))
  have hrev : (stripChars a ++ '|' :: stripChars b).reverse
      = (stripChars b).reverse ++ '|' :: (stripChars a).reverse := by
    simp
  have h2 : stripL ((stripChars a ++ '|' :: stripChars b).reverse)
      = (stripChars a ++ '|' :: stripChars b).reverse := by
    rw [hrev]
    exact stripL_fixed_of_noLead _ (noLead_concat _ _ (noLead_reverse_stripChars b))
  calc stripChars (stripChars a ++ '|' :: stripChars b)
      = stripR (stripChars a ++ '|' :: stripChars b) := by rw [stripChars, h1]
    _ = stripChars a ++ '|' :: stripChars b := by
        rw [stripR, h2, List.reverse_reverse]

/-! ## Strings -/

theorem string_data_eq (a b : String) (h : a.data = b.data) : a = b := by
  cases a
  cases b
  cases h
  rfl

theorem string_data_append (a b : String) : (a ++ b).data = a.data ++ b.data := by
  cases a
  cases b
  rfl

theorem get_entry_identity_data (e : Entry) :
    (get_entry_identity e).data
      = stripChars e.title.data ++ '|' :: stripChars (e.image.getD "").data := by
  show ((pyStrip e.title ++ "|") ++ pyStrip (e.image.getD "")).data = _
  rw [string_data_append, string_data_append]
  simp [pyStrip]

theorem pyStrip_identity (e : Entry) :
    pyStrip (get_entry_identity e) = get_entry_identity e := by
  apply string_data_eq
  show stripChars (get_entry_identity e).data = (get_entry_identity e).data
  rw [get_entry_identity_data]
  exact stripChars_concat _ _

theorem identity_ne_empty (e : Entry) : get_entry_identity e ≠ "" := by
  intro h
  have h2 := congrArg String.data h
  rw [get_entry_identity_data] at h2
  simp at h2

/-- Writing the freshly computed identity to a marker file and reading it
back yields exactly that identity (it is already stripped and nonempty). -/
theorem write_model_identity (e : Entry) :
    write_text_file_model (get_entry_identity e) = some (get_entry_identity e) := by
  rw [write_text_file_model, pyStrip_identity, if_neg (identity_ne_empty e)]

/-- The dedup key of a freshly built record is the entry's identity. -/
theorem record_fp_build (e : Entry) :
    record_fp (build_daily_record e) = get_entry_identity e := rfl

/-! ## File-system assoc list -/

theorem fsRead_fsWrite_self {α : Type} (fs : List (String × JFile α)) (n : String)
    (c : JFile α) : fsRead (fsWrite fs n c) n = c := by
  induction fs with
  | nil => simp [fsWrite, fsRead]
  | cons p ps ih =>
    rw [fsWrite]
    by_cases h : p.1 = n
    · rw [if_pos h, fsRead, if_pos rfl]
    · rw [if_neg h, fsRead, if_neg h]
      exact ih

theorem fsRead_fsWrite_other {α : Type} (fs : List (String × JFile α)) (n m : String)
    (c : JFile α) (h : m ≠ n) : fsRead (fsWrite fs n c) m = fsRead fs m := by
  have hnm : ¬ (n = m) := fun h2 => h h2.symm
  induction fs with
  | nil => simp [fsWrite, fsRead, hnm]
  | cons p ps ih =>
    obtain ⟨pn, pc⟩ := p
    rw [fsWrite]
    by_cases hp : pn = n
    · have hpm : ¬ (pn = m) := by rw [hp]; exact hnm
      rw [if_pos hp]
      show fsRead ((n, c) :: ps) m = fsRead ((pn, pc) :: ps) m
      rw [fsRead, if_neg hnm]
      rw [fsRead, if_neg hpm]
    · rw [if_neg hp]
      show fsRead ((pn, pc) :: fsWrite ps n c) m = fsRead ((pn, pc) :: ps) m
      by_cases hm : pn = m
      · rw [fsRead, if_pos hm, fsRead, if_pos hm]
      · rw [fsRead, if_neg hm, fsRead, if_neg hm]
        exact ih

/-! ## Frame lemmas about the orchestrator -/

/-- The YouTube section touches no persistent state except its own marker. -/
theorem yt_section_frame (w : World) (env : RunEnv) :
    (send_youtube_latest_if_new w env).crunFpFile = w.crunFpFile ∧
    (send_youtube_latest_if_new w env).dayFile = w.dayFile ∧
    (send_youtube_latest_if_new w env).monthFiles = w.monthFiles ∧
    (send_youtube_latest_if_new w env).yearDirs = w.yearDirs ∧
    (send_youtube_latest_if_new w env).monthManifestFile = w.monthManifestFile ∧
    (send_youtube_latest_if_new w env).yearManifestFile = w.yearManifestFile ∧
    (send_youtube_latest_if_new w env).gi = w.gi := by
  cases hfeed : env.ytFeed with
  | nil => simp [send_youtube_latest_if_new, hfeed]
  | cons v vs =>
    cases hskip : ytSkip w.ytIdFile v.vid with
    | true => simp [send_youtube_latest_if_new, hfeed, hskip]
    | false =>
      cases hsend : env.ytSendOk with
      | true => simp [send_youtube_latest_if_new, hfeed, hskip, hsend]
      | false => simp [send_youtube_latest_if_new, hfeed, hskip, hsend]

/-- The Crunchyroll section never touches the YouTube marker. -/
theorem crunch_section_ytId (w : World) (env : RunEnv) :
    (crunchSection w env).1.ytIdFile = w.ytIdFile := by
  cases hfeed : env.newsFeed with
  | nil => simp [crunchSection, hfeed]
  | cons latest rest =>
    cases hskip : crunchSkip w.crunFpFile (get_entry_identity latest) with
    | true => simp [crunchSection, hfeed, hskip]
    | false =>
      cases hsv : (save_single_news env.today w.dayFile latest).1.1 with
      | none => simp [crunchSection, hfeed, hskip, hsv]
      | some r =>
        cases hsend : send_crunchyroll_one_ok latest env.photoOk env.msgOk with
        | true => simp [crunchSection, hfeed, hskip, hsv, hsend]
        | false => simp [crunchSection, hfeed, hskip, hsv, hsend]

/-! # Claims -/

/-- C10: calling the Global Paginated Index append with an empty batch is a
complete no-op: the state (pages, pagination descriptor, stats) is returned
unchanged and the operation trace is empty — nothing is loaded, created or
overwritten. -/
theorem gi_empty_batch_noop (st : GIState) (now : String) :
    gi_append_records st [] now = (st, []) := rfl

/-- C3: `append_if_new` (`save_single_news`) loads the day's sequence
treating an absent or unparseable file as empty, computes the dedup key as
trimmed title plus trimmed image, and, if some existing record shares the
key, returns `(none, path)` leaving the day file unchanged; otherwise it
appends the candidate at the end, persists the full sequence, and returns
`(candidate, path)`. -/
theorem append_if_new_spec (today : Date) (file : JFile DailyRecord) (e : Entry) :
    load_json_list (JFile.absent : JFile DailyRecord) = [] ∧
    load_json_list (JFile.unparseable : JFile DailyRecord) = [] ∧
    save_single_news today file e =
      if ∃ x ∈ load_json_list file,
          record_fp x = pyStrip e.title ++ "|" ++ pyStrip (e.image.getD "") then
        ((none, dailyPathString today), file)
      else
        ((some (build_daily_record e), dailyPathString today),
          JFile.stored (load_json_list file ++ [build_daily_record e])) := by
  refine ⟨rfl, rfl, ?_⟩
  by_cases h : ∃ x ∈ load_json_list file,
      record_fp x = pyStrip e.title ++ "|" ++ pyStrip (e.image.getD "")
  · rw [if_pos h]
    have ha : (load_json_list file).any (fun x => record_fp x == get_entry_identity e) = true := by
      rw [List.any_eq_true]
      obtain ⟨x, hx, hfp⟩ := h
      exact ⟨x, hx, by rw [beq_iff_eq]; exact hfp⟩
    simp [save_single_news, ha]
  · rw [if_neg h]
    have ha : (load_json_list file).any (fun x => record_fp x == get_entry_identity e) = false := by
      rw [List.any_eq_false]
      intro x hx
      simp only [beq_iff_eq]
      exact fun hfp => h ⟨x, hx, hfp⟩
    simp [save_single_news, ha]

/-- C7: appending twice with the same `(title, image)` pair on the same day
leaves exactly one stored copy, the second call reports the duplicate
outcome (`none`) and leaves the file unchanged; titles and images that
differ only by leading/trailing whitespace count as the same record. -/
theorem daily_append_idempotent (today : Date) (file : JFile DailyRecord) (e e' : Entry)
    (ht : pyStrip e'.title = pyStrip e.title)
    (hi : pyStrip (e'.image.getD "") = pyStrip (e.image.getD ""))
    (hfresh : ∀ x ∈ load_json_list file, record_fp x ≠ get_entry_identity e) :
    (save_single_news today file e).1.1 = some (build_daily_record e) ∧
    (save_single_news today (save_single_news today file e).2 e').1.1 = none ∧
    (save_single_news today (save_single_news today file e).2 e').2
      = (save_single_news today file e).2 ∧
    (load_json_list (save_single_news today file e).2).countP
      (fun x => record_fp x == get_entry_identity e) = 1 := by
  have hid : get_entry_identity e' = get_entry_identity e := by
    rw [get_entry_identity, get_entry_identity, ht, hi]
  have ha : (load_json_list file).any (fun x => record_fp x == get_entry_identity e) = false := by
    rw [List.any_eq_false]
    intro x hx
    simp only [beq_iff_eq]
    exact hfresh x hx
  have h1 : save_single_news today file e =
      ((some (build_daily_record e), dailyPathString today),
        JFile.stored (load_json_list file ++ [build_daily_record e])) := by
    simp [save_single_news, ha]
  have ha2 : (load_json_list (JFile.stored (load_json_list file ++ [build_daily_record e]))).any
      (fun x => record_fp x == get_entry_identity e') = true := by
    rw [load_json_list, List.any_eq_true]
    exact ⟨build_daily_record e, by simp, by rw [beq_iff_eq, hid, record_fp_build]⟩
  have h2 : save_single_news today
        (JFile.stored (load_json_list file ++ [build_daily_record e])) e' =
      ((none, dailyPathString today),
        JFile.stored (load_json_list file ++ [build_daily_record e])) := by
    simp [save_single_news, ha2]
  refine ⟨by rw [h1], by rw [h1, h2], by rw [h1, h2], ?_⟩
  rw [h1, load_json_list, List.countP_append]
  have hz : (load_json_list file).countP (fun x => record_fp x == get_entry_identity e) = 0 := by
    rw [List.countP_eq_zero]
    intro x hx
    simp only [beq_iff_eq]
    exact hfresh x hx
  rw [hz]
  simp [List.countP_cons, record_fp_build]

/-- C7 witness: concrete duplicate-append pair differing only by
whitespace, on an absent day file. -/
theorem daily_append_idempotent_witness :
    (save_single_news ⟨2025, 3, 5⟩ JFile.absent entryA).1.1
        = some (build_daily_record entryA) ∧
    (save_single_news ⟨2025, 3, 5⟩ (save_single_news ⟨2025, 3, 5⟩ JFile.absent entryA).2
        { title := " A ", description_full := "other", image := some " http://x/1.png",
          categories := ["x"] }).1.1 = none ∧
    (save_single_news ⟨2025, 3, 5⟩ (save_single_news ⟨2025, 3, 5⟩ JFile.absent entryA).2
        { title := " A ", description_full := "other", image := some " http://x/1.png",
          categories := ["x"] }).2 = (save_single_news ⟨2025, 3, 5⟩ JFile.absent entryA).2 ∧
    (load_json_list (save_single_news ⟨2025, 3, 5⟩ JFile.absent entryA).2).countP
      (fun x => record_fp x == get_entry_identity entryA) = 1 :=
  daily_append_idempotent ⟨2025, 3, 5⟩ JFile.absent entryA
    { title := " A ", description_full := "other", image := some " http://x/1.png",
      categories := ["x"] }
    (by decide) (by decide) (by simp [load_json_list])

/-- C2 counterexample: a run in which the latest news item is newly stored
(the Daily File receives its record) but the text-notification send raises;
the run aborts before the fingerprint write, so the marker does not equal
the item's identity. -/
theorem marker_not_written_on_send_failure :
    (run cxWorld cxEnv).dayFile = JFile.stored [build_daily_record cxEntry] ∧
    (run cxWorld cxEnv).crunFpFile ≠ some (get_entry_identity cxEntry) := by
  decide

/-- C2 (amended): for the news source, after a run that finds the latest
item to be a duplicate already in today's Daily File the marker equals the
item's identity regardless of downstream outcomes; after a run that newly
stores it the marker equals the identity provided the notification step
completes without an uncaught exception (photo sent, or the fallback text
message sent); the upload outcome (`env.uploadOk`) is universally
quantified and never matters. -/
theorem marker_written_cases (w : World) (env : RunEnv) (e : Entry) (rest : List Entry)
    (hconf : env.configOk = true)
    (hfeed : env.newsFeed = e :: rest)
    (hnoskip : crunchSkip w.crunFpFile (get_entry_identity e) = false) :
    ((load_json_list w.dayFile).any (fun x => record_fp x == get_entry_identity e) = true →
        (run w env).crunFpFile = some (get_entry_identity e)) ∧
    ((load_json_list w.dayFile).any (fun x => record_fp x == get_entry_identity e) = false →
      send_crunchyroll_one_ok e env.photoOk env.msgOk = true →
        (run w env).crunFpFile = some (get_entry_identity e)) := by
  constructor
  · intro hdup
    have hsv : (save_single_news env.today w.dayFile e).1.1 = none := by
      simp [save_single_news, hdup]
    have h1 : (crunchSection w env).2 = false := by
      simp [crunchSection, hfeed, hnoskip, hsv]
    have h2 : (crunchSection w env).1.crunFpFile
        = write_text_file_model (get_entry_identity e) := by
      simp [crunchSection, hfeed, hnoskip, hsv]
    simp only [run, hconf, if_true]
    rw [h1]
    simp only [Bool.false_eq_true, if_false]
    rw [(yt_section_frame _ _).1, h2, write_model_identity]
  · intro hnodup hsend
    have hsv : (save_single_news env.today w.dayFile e).1.1
        = some (build_daily_record e) := by
      simp [save_single_news, hnodup]
    have h1 : (crunchSection w env).2 = false := by
      simp [crunchSection, hfeed, hnoskip, hsv, hsend]
    have h2 : (crunchSection w env).1.crunFpFile
        = write_text_file_model (get_entry_identity e) := by
      simp [crunchSection, hfeed, hnoskip, hsv, hsend]
    simp only [run, hconf, if_true]
    rw [h1]
    simp only [Bool.false_eq_true, if_false]
    rw [(yt_section_frame _ _).1, h2, write_model_identity]

/-- C2 witness: the duplicate path of the amended claim at a concrete run
(every downstream outcome set to failure), ending with the marker equal to
the item's identity. -/
theorem marker_written_cases_witness :
    (run dupWorld dupEnv).crunFpFile = some (get_entry_identity entryA) :=
  (marker_written_cases dupWorld dupEnv entryA [] rfl rfl (by decide)).1 (by decide)

/-- C9: when a source's latest item matches its stored fingerprint marker,
the run performs zero writes for that source — for the news source the
Daily File, the global index, the directory listings, both manifests and
the marker are unchanged; for the video source its marker is unchanged. -/
theorem fingerprint_match_no_writes (w : World) (env : RunEnv) :
    (∀ e rest, env.newsFeed = e :: rest →
      crunchSkip w.crunFpFile (get_entry_identity e) = true →
        (run w env).crunFpFile = w.crunFpFile ∧
        (run w env).dayFile = w.dayFile ∧
        (run w env).monthFiles = w.monthFiles ∧
        (run w env).yearDirs = w.yearDirs ∧
        (run w env).monthManifestFile = w.monthManifestFile ∧
        (run w env).yearManifestFile = w.yearManifestFile ∧
        (run w env).gi = w.gi) ∧
    (∀ v rest2, env.ytFeed = v :: rest2 →
      ytSkip w.ytIdFile v.vid = true →
        (run w env).ytIdFile = w.ytIdFile) := by
  constructor
  · intro e rest hfeed hskip
    cases hconf : env.configOk with
    | false => simp [run, hconf]
    | true =>
      have hcr : crunchSection w env = (w, false) := by
        simp [crunchSection, hfeed, hskip]
      simp only [run, hconf, if_true, hcr]
      simp only [Bool.false_eq_true, if_false]
      exact yt_section_frame w env
  · intro v rest2 hyt hskip
    cases hconf : env.configOk with
    | false => simp [run, hconf]
    | true =>
      have hid : (crunchSection w env).1.ytIdFile = w.ytIdFile :=
        crunch_section_ytId w env
      simp only [run, hconf, if_true]
      cases habort : (crunchSection w env).2 with
      | true => simp [hid]
      | false =>
        simp only [Bool.false_eq_true, if_false]
        rw [send_youtube_latest_if_new, hyt]
        simp only [hid, hskip, if_true]

/-- C9 witness: a concrete run in which both feeds repeat the stored
markers; nothing observable changes. -/
theorem fingerprint_match_no_writes_witness :
    ((run skipWorld skipEnv).crunFpFile = skipWorld.crunFpFile ∧
     (run skipWorld skipEnv).dayFile = skipWorld.dayFile ∧
     (run skipWorld skipEnv).monthFiles = skipWorld.monthFiles ∧
     (run skipWorld skipEnv).yearDirs = skipWorld.yearDirs ∧
     (run skipWorld skipEnv).monthManifestFile = skipWorld.monthManifestFile ∧
     (run skipWorld skipEnv).yearManifestFile = skipWorld.yearManifestFile ∧
     (run skipWorld skipEnv).gi = skipWorld.gi) ∧
    (run skipWorld skipEnv).ytIdFile = skipWorld.ytIdFile :=
  ⟨(fingerprint_match_no_writes skipWorld skipEnv).1 entryA [] rfl (by decide),
   (fingerprint_match_no_writes skipWorld skipEnv).2 ⟨"vid1"⟩ [] rfl (by decide)⟩

/-- C1 (code bug): on a day whose Daily File already holds one record, the
run appends the new record at position 1 of the Daily File, yet the slim
record written to the global index carries the reference
`data/2025/03/05-03.json#0` — `run` passes the single-record batch
`[rec]` to `convert_full_to_slim`, so the index component is always 0
instead of the record's actual position in the day's file. -/
theorem slim_reference_index_bug :
    (run c1World c1Env).dayFile
        = JFile.stored [build_daily_record entryA, build_daily_record entryB] ∧
    (load_json_list (fsRead (run c1World c1Env).gi.pages "index_1.json")).map SlimRecord.path
        = [some (dailyPathString ⟨2025, 3, 5⟩ ++ "#0")] := by
  decide

/-! ## Global index step lemmas -/

theorem gi_load_pagination_stored (p : Pagination) :
    gi_load_pagination (.stored p) = p := rfl

theorem isEmpty_true_eq {α : Type} (l : List α) (h : l.isEmpty = true) : l = [] := by
  cases l with
  | nil => rfl
  | cons a as => simp [List.isEmpty] at h

theorem isEmpty_false_ne {α : Type} (l : List α) (h : l.isEmpty = false) : l ≠ [] := by
  cases l with
  | nil => simp [List.isEmpty] at h
  | cons a as => exact List.cons_ne_nil a as

/-- One `gi_append_records` call on a state with no registered page:
page 1 is created and receives the whole batch. -/
theorem gi_append_cons_fresh (st : GIState) (r : SlimRecord) (rs : List SlimRecord)
    (now : String) (hemp : (gi_load_pagination st.pagFile).files.isEmpty = true) :
    (gi_append_records st (r :: rs) now).1 =
      { pagFile := .stored
          { total_articles := (gi_load_pagination st.pagFile).total_articles + (r :: rs).length
            files := ["index_1.json"] }
        pages := fsWrite (fsWrite st.pages "index_1.json" (.stored []))
                   "index_1.json" (.stored (r :: rs))
        statsFile := some
          { total_articles := (gi_load_pagination st.pagFile).total_articles + (r :: rs).length
            added_today := (r :: rs).length
            last_update := now } } := by
  have hload : load_json_list (fsRead (fsWrite st.pages "index_1.json"
      ((.stored []) : JFile SlimRecord)) "index_1.json") = [] := by
    rw [fsRead_fsWrite_self]
    rfl
  have hrot : ¬ (GLOBAL_PAGE_SIZE ≤ ([] : List SlimRecord).length) := by decide
  have hz : ¬ (GLOBAL_PAGE_SIZE = 0) := by decide
  simp [gi_append_records, hemp, hload, hrot, hz]

/-- One `gi_append_records` call on a state with at least one registered
page: rotation is decided by the pre-append size of the last page, and the
whole batch lands on a single page. -/
theorem gi_append_cons_existing (st : GIState) (r : SlimRecord) (rs : List SlimRecord)
    (now : String) (hemp : (gi_load_pagination st.pagFile).files.isEmpty = false) :
    (gi_append_records st (r :: rs) now).1 =
      (if GLOBAL_PAGE_SIZE ≤ (load_json_list (fsRead st.pages
            ((gi_load_pagination st.pagFile).files.getLast?.getD ""))).length then
        { pagFile := .stored
            { total_articles := (gi_load_pagination st.pagFile).total_articles + (r :: rs).length
              files := (gi_load_pagination st.pagFile).files
                  ++ [pageName ((gi_load_pagination st.pagFile).files.length + 1)] }
          pages := fsWrite (fsWrite st.pages
                     (pageName ((gi_load_pagination st.pagFile).files.length + 1)) (.stored []))
                     (pageName ((gi_load_pagination st.pagFile).files.length + 1))
                     (.stored (r :: rs))
          statsFile := some
            { total_articles := (gi_load_pagination st.pagFile).total_articles + (r :: rs).length
              added_today := (r :: rs).length
              last_update := now } }
      else
        { pagFile := .stored
            { total_articles := (gi_load_pagination st.pagFile).total_articles + (r :: rs).length
              files := (gi_load_pagination st.pagFile).files }
          pages := fsWrite st.pages ((gi_load_pagination st.pagFile).files.getLast?.getD "")
                     (.stored (load_json_list (fsRead st.pages
                        ((gi_load_pagination st.pagFile).files.getLast?.getD "")) ++ r :: rs))
          statsFile := some
            { total_articles := (gi_load_pagination st.pagFile).total_articles + (r :: rs).length
              added_today := (r :: rs).length
              last_update := now } }) := by
  by_cases hrot : GLOBAL_PAGE_SIZE ≤ (load_json_list (fsRead st.pages
      ((gi_load_pagination st.pagFile).files.getLast?.getD ""))).length
  · rw [if_pos hrot]
    simp [gi_append_records, hemp, hrot]
  · rw [if_neg hrot]
    simp [gi_append_records, hemp, hrot]

/-- C5: for every non-empty batch, rotation is decided solely by the
current last page's pre-append size against the capacity, and the whole
batch is then written in order to a single page — never split — so an
over-capacity batch pushes that page past the capacity. -/
theorem gi_no_batch_split (st : GIState) (recs : List SlimRecord) (now : String)
    (cur : String) (items : List SlimRecord)
    (hne : recs ≠ [])
    (hfiles : (gi_load_pagination st.pagFile).files ≠ [])
    (hcur : cur = (gi_load_pagination st.pagFile).files.getLast?.getD "")
    (hitems : items = load_json_list (fsRead st.pages cur)) :
    (GLOBAL_PAGE_SIZE ≤ items.length →
      (gi_load_pagination ((gi_append_records st recs now).1).pagFile).files
          = (gi_load_pagination st.pagFile).files
              ++ [pageName ((gi_load_pagination st.pagFile).files.length + 1)] ∧
      fsRead ((gi_append_records st recs now).1).pages
          (pageName ((gi_load_pagination st.pagFile).files.length + 1))
        = JFile.stored recs) ∧
    (items.length < GLOBAL_PAGE_SIZE →
      (gi_load_pagination ((gi_append_records st recs now).1).pagFile).files
          = (gi_load_pagination st.pagFile).files ∧
      fsRead ((gi_append_records st recs now).1).pages cur
        = JFile.stored (items ++ recs)) := by
  subst hcur
  subst hitems
  cases recs with
  | nil => exact absurd rfl hne
  | cons r rs =>
    have hemp : (gi_load_pagination st.pagFile).files.isEmpty = false := by
      cases hf : (gi_load_pagination st.pagFile).files with
      | nil => exact absurd hf hfiles
      | cons a as => rfl
    rw [gi_append_cons_existing st r rs now hemp]
    constructor
    · intro hrot
      rw [if_pos hrot]
      exact ⟨rfl, fsRead_fsWrite_self _ _ _⟩
    · intro hlt
      rw [if_neg (by omega)]
      exact ⟨rfl, fsRead_fsWrite_self _ _ _⟩

/-- C5 witness: a one-page state holding three records receives a two-item
batch without rotating; the page now holds all five items. -/
theorem gi_no_batch_split_witness :
    ((3 : Nat) < GLOBAL_PAGE_SIZE) ∧
    ((gi_load_pagination ((gi_append_records giThree [sampleSlim, sampleSlim] "T").1).pagFile).files
        = (gi_load_pagination giThree.pagFile).files ∧
      fsRead ((gi_append_records giThree [sampleSlim, sampleSlim] "T").1).pages "index_1.json"
        = JFile.stored ([sampleSlim, sampleSlim, sampleSlim] ++ [sampleSlim, sampleSlim])) :=
  ⟨by decide,
    (gi_no_batch_split giThree [sampleSlim, sampleSlim] "T" "index_1.json"
      [sampleSlim, sampleSlim, sampleSlim] (by decide) (by decide) rfl rfl).2 (by decide)⟩

/-- C6: every append preserves the Pagination Descriptor invariant — the
files list is never reordered or pruned: it either stays unchanged or grows
by exactly one entry at the end, named with the next sequential page number
derived from the list's length; and every page other than the last
registered page is left untouched (only the last page receives items). -/
theorem gi_descriptor_invariant (st : GIState) (recs : List SlimRecord) (now : String) :
    ((gi_load_pagination ((gi_append_records st recs now).1).pagFile).files
        = (gi_load_pagination st.pagFile).files
      ∨ (gi_load_pagination ((gi_append_records st recs now).1).pagFile).files
        = (gi_load_pagination st.pagFile).files
            ++ [pageName ((gi_load_pagination st.pagFile).files.length + 1)]) ∧
    (∀ f : String,
      some f ≠ (gi_load_pagination ((gi_append_records st recs now).1).pagFile).files.getLast? →
      fsRead ((gi_append_records st recs now).1).pages f = fsRead st.pages f) := by
  cases recs with
  | nil => exact ⟨Or.inl rfl, fun f _ => rfl⟩
  | cons r rs =>
    cases hemp : (gi_load_pagination st.pagFile).files.isEmpty with
    | true =>
      have hnil : (gi_load_pagination st.pagFile).files = [] := isEmpty_true_eq _ hemp
      rw [gi_append_cons_fresh st r rs now hemp]
      constructor
      · right
        rw [hnil]
        rfl
      · intro f hf
        simp only [gi_load_pagination_stored] at hf
        have hf1 : f ≠ "index_1.json" := by
          intro h
          exact hf (by rw [h]; rfl)
        rw [fsRead_fsWrite_other _ _ _ _ hf1, fsRead_fsWrite_other _ _ _ _ hf1]
    | false =>
      have hns : (gi_load_pagination st.pagFile).files ≠ [] := isEmpty_false_ne _ hemp
      rw [gi_append_cons_existing st r rs now hemp]
      by_cases hrot : GLOBAL_PAGE_SIZE ≤ (load_json_list (fsRead st.pages
          ((gi_load_pagination st.pagFile).files.getLast?.getD ""))).length
      · rw [if_pos hrot]
        constructor
        · right
          rfl
        · intro f hf
          simp only [gi_load_pagination_stored, List.getLast?_concat] at hf
          have hf1 : f ≠ pageName ((gi_load_pagination st.pagFile).files.length + 1) := by
            intro h
            exact hf (by rw [h])
          rw [fsRead_fsWrite_other _ _ _ _ hf1, fsRead_fsWrite_other _ _ _ _ hf1]
      · rw [if_neg hrot]
        constructor
        · left
          rfl
        · intro f hf
          simp only [gi_load_pagination_stored] at hf
          obtain ⟨g, hg⟩ : ∃ g, (gi_load_pagination st.pagFile).files.getLast? = some g := by
            cases hgl : (gi_load_pagination st.pagFile).files.getLast? with
            | none => exact absurd (List.getLast?_eq_none_iff.mp hgl) hns
            | some g => exact ⟨g, rfl⟩
          rw [hg] at hf
          have hf1 : f ≠ (gi_load_pagination st.pagFile).files.getLast?.getD "" := by
            rw [hg]
            intro h
            exact hf (by rw [h]; rfl)
          rw [fsRead_fsWrite_other _ _ _ _ hf1]

/-- C6 witness: appending one record to a one-page state leaves the files
list unchanged or grown at the end, and a foreign page name is untouched. -/
theorem gi_descriptor_invariant_witness :
    ((gi_load_pagination ((gi_append_records giThree [sampleSlim] "T").1).pagFile).files
        = (gi_load_pagination giThree.pagFile).files
      ∨ (gi_load_pagination ((gi_append_records giThree [sampleSlim] "T").1).pagFile).files
        = (gi_load_pagination giThree.pagFile).files
            ++ [pageName ((gi_load_pagination giThree.pagFile).files.length + 1)]) ∧
    fsRead ((gi_append_records giThree [sampleSlim] "T").1).pages "index_9.json"
      = fsRead giThree.pages "index_9.json" :=
  ⟨(gi_descriptor_invariant giThree [sampleSlim] "T").1,
   (gi_descriptor_invariant giThree [sampleSlim] "T").2 "index_9.json" (by decide)⟩

/-! ## Rotation scenario (C4) -/

theorem gi_fold_singles_concat (now : String) (l : List SlimRecord) (x : SlimRecord) :
    gi_fold_singles now (l ++ [x])
      = (gi_append_records (gi_fold_singles now l) [x] now).1 := by
  rw [gi_fold_singles, gi_fold_singles, List.foldl_append]
  rfl

theorem gi_step_first (x : SlimRecord) (now : String) :
    (gi_append_records giEmpty [x] now).1 =
      ⟨.stored ⟨1, ["index_1.json"]⟩, [("index_1.json", .stored [x])],
        some ⟨1, 1, now⟩⟩ := rfl

theorem gi_step_under (k : Nat) (l : List SlimRecord) (x : SlimRecord) (s : Option Stats)
    (now : String) (hlen : l.length < GLOBAL_PAGE_SIZE) :
    (gi_append_records
        ⟨.stored ⟨k, ["index_1.json"]⟩, [("index_1.json", .stored l)], s⟩ [x] now).1 =
      ⟨.stored ⟨k + 1, ["index_1.json"]⟩, [("index_1.json", .stored (l ++ [x]))],
        some ⟨k + 1, 1, now⟩⟩ := by
  have hcond : ¬ (GLOBAL_PAGE_SIZE ≤ (load_json_list (fsRead
      ([("index_1.json", JFile.stored l)] : List (String × JFile SlimRecord))
      ((gi_load_pagination (PagFile.stored ⟨k, ["index_1.json"]⟩)).files.getLast?.getD ""))).length) := by
    show ¬ (GLOBAL_PAGE_SIZE ≤ l.length)
    omega
  rw [gi_append_cons_existing
        ⟨.stored ⟨k, ["index_1.json"]⟩, [("index_1.json", .stored l)], s⟩ x [] now rfl,
      if_neg hcond]
  rfl

theorem gi_step_at_capacity (k : Nat) (l : List SlimRecord) (x : SlimRecord) (s : Option Stats)
    (now : String) (hlen : GLOBAL_PAGE_SIZE ≤ l.length) :
    (gi_append_records
        ⟨.stored ⟨k, ["index_1.json"]⟩, [("index_1.json", .stored l)], s⟩ [x] now).1 =
      ⟨.stored ⟨k + 1, ["index_1.json", "index_2.json"]⟩,
        [("index_1.json", .stored l), ("index_2.json", .stored [x])],
        some ⟨k + 1, 1, now⟩⟩ := by
  have hcond : GLOBAL_PAGE_SIZE ≤ (load_json_list (fsRead
      ([("index_1.json", JFile.stored l)] : List (String × JFile SlimRecord))
      ((gi_load_pagination (PagFile.stored ⟨k, ["index_1.json"]⟩)).files.getLast?.getD ""))).length := by
    show GLOBAL_PAGE_SIZE ≤ l.length
    exact hlen
  rw [gi_append_cons_existing
        ⟨.stored ⟨k, ["index_1.json"]⟩, [("index_1.json", .stored l)], s⟩ x [] now rfl,
      if_pos hcond]
  have hp : pageName 2 = "index_2.json" := by decide
  have hij : ¬ (("index_1.json" : String) = "index_2.json") := by decide
  simp [gi_load_pagination_stored, fsWrite, hp, hij]

theorem gi_fold_under (now : String) (l : List SlimRecord) :
    l ≠ [] → l.length ≤ GLOBAL_PAGE_SIZE →
      gi_fold_singles now l =
        ⟨.stored ⟨l.length, ["index_1.json"]⟩, [("index_1.json", .stored l)],
          some ⟨l.length, 1, now⟩⟩ := by
  induction l using List.reverseRecOn with
  | nil => intro h _; exact absurd rfl h
  | append_singleton xs x ih =>
    intro _ hlen
    rw [gi_fold_singles_concat]
    by_cases hxs : xs = []
    · rw [hxs, show gi_fold_singles now [] = giEmpty from rfl, gi_step_first]
      simp
    · have hlt : xs.length < GLOBAL_PAGE_SIZE := by
        rw [List.length_append] at hlen
        simp at hlen
        omega
      rw [ih hxs (by omega), gi_step_under xs.length xs x _ now hlt]
      simp

/-- C4: starting from an empty Global Paginated Index, `capacity + 1`
single-record append calls produce exactly 2 index pages, page 1 holding
exactly `GLOBAL_PAGE_SIZE` (500) items and page 2 exactly 1, the
descriptor's files list having length 2 and `total_articles` equal to
`capacity + 1`. -/
theorem gi_rotation_scenario (recs : List SlimRecord) (now : String)
    (hlen : recs.length = GLOBAL_PAGE_SIZE + 1) :
    (gi_fold_singles now recs).pages.length = 2 ∧
    (gi_load_pagination (gi_fold_singles now recs).pagFile).files
        = ["index_1.json", "index_2.json"] ∧
    (gi_load_pagination (gi_fold_singles now recs).pagFile).files.length = 2 ∧
    (load_json_list (fsRead (gi_fold_singles now recs).pages "index_1.json")).length
        = GLOBAL_PAGE_SIZE ∧
    (load_json_list (fsRead (gi_fold_singles now recs).pages "index_2.json")).length = 1 ∧
    (gi_load_pagination (gi_fold_singles now recs).pagFile).total_articles
        = GLOBAL_PAGE_SIZE + 1 := by
  have hne : recs ≠ [] := by
    intro h
    rw [h] at hlen
    simp [GLOBAL_PAGE_SIZE] at hlen
  obtain ⟨xs, x, hconcat⟩ : ∃ xs x, recs = xs ++ [x] :=
    ⟨recs.dropLast, recs.getLast hne, (List.dropLast_append_getLast hne).symm⟩
  have hxs : xs.length = GLOBAL_PAGE_SIZE := by
    rw [hconcat, List.length_append] at hlen
    simp at hlen
    omega
  have hxne : xs ≠ [] := by
    intro h
    rw [h] at hxs
    simp [GLOBAL_PAGE_SIZE] at hxs
  rw [hconcat, gi_fold_singles_concat, gi_fold_under now xs hxne (le_of_eq hxs),
      gi_step_at_capacity xs.length xs x _ now (le_of_eq hxs.symm)]
  refine ⟨rfl, rfl, rfl, ?_, rfl, ?_⟩
  · show xs.length = GLOBAL_PAGE_SIZE
    exact hxs
  · show xs.length + 1 = GLOBAL_PAGE_SIZE + 1
    omega

/-- C4 witness: 501 copies of a sample slim record. -/
theorem gi_rotation_scenario_witness :
    (List.replicate (GLOBAL_PAGE_SIZE + 1) sampleSlim).length = GLOBAL_PAGE_SIZE + 1 ∧
    ((gi_fold_singles "T" (List.replicate (GLOBAL_PAGE_SIZE + 1) sampleSlim)).pages.length = 2 ∧
     (gi_load_pagination (gi_fold_singles "T"
         (List.replicate (GLOBAL_PAGE_SIZE + 1) sampleSlim)).pagFile).files
        = ["index_1.json", "index_2.json"] ∧
     (gi_load_pagination (gi_fold_singles "T"
         (List.replicate (GLOBAL_PAGE_SIZE + 1) sampleSlim)).pagFile).files.length = 2 ∧
     (load_json_list (fsRead (gi_fold_singles "T"
         (List.replicate (GLOBAL_PAGE_SIZE + 1) sampleSlim)).pages "index_1.json")).length
        = GLOBAL_PAGE_SIZE ∧
     (load_json_list (fsRead (gi_fold_singles "T"
         (List.replicate (GLOBAL_PAGE_SIZE + 1) sampleSlim)).pages "index_2.json")).length = 1 ∧
     (gi_load_pagination (gi_fold_singles "T"
         (List.replicate (GLOBAL_PAGE_SIZE + 1) sampleSlim)).pagFile).total_articles
        = GLOBAL_PAGE_SIZE + 1) :=
  ⟨by simp, gi_rotation_scenario (List.replicate (GLOBAL_PAGE_SIZE + 1) sampleSlim) "T" (by simp)⟩

/-! ## Order lemmas for the code-point comparison -/

theorem char_toNat_inj {a b : Char} (h : a.toNat = b.toNat) : a = b :=
  Char.ext (UInt32.ext h)

theorem charListLt_asymm (a : List Char) :
    ∀ b, charListLt a b = true → charListLt b a = false := by
  induction a with
  | nil =>
    intro b h
    cases b with
    | nil => simp [charListLt] at h
    | cons y ys => rfl
  | cons x xs ih =>
    intro b h
    cases b with
    | nil => simp [charListLt] at h
    | cons y ys =>
      rw [charListLt] at h
      rw [charListLt]
      by_cases h1 : x.toNat < y.toNat
      · rw [if_neg (by omega), if_pos h1]
      · rw [if_neg h1] at h
        by_cases h2 : y.toNat < x.toNat
        · rw [if_pos h2] at h
          simp at h
        · rw [if_neg h2] at h
          rw [if_neg h2, if_neg h1]
          exact ih ys h

theorem charListLt_trans_false (a : List Char) :
    ∀ b c, charListLt a b = false → charListLt b c = false → charListLt a c = false := by
  induction a with
  | nil =>
    intro b c hab hbc
    cases c with
    | nil => rfl
    | cons z zs =>
      cases b with
      | nil => exact hbc
      | cons y ys => rw [charListLt] at hab; simp at hab
  | cons x xs ih =>
    intro b c hab hbc
    cases b with
    | nil =>
      cases c with
      | nil => rfl
      | cons z zs => rw [charListLt] at hbc; simp at hbc
    | cons y ys =>
      cases c with
      | nil => rfl
      | cons z zs =>
        rw [charListLt] at hab hbc ⊢
        by_cases h1 : x.toNat < y.toNat
        · rw [if_pos h1] at hab
          simp at hab
        · rw [if_neg h1] at hab
          by_cases h2 : y.toNat < z.toNat
          · rw [if_pos h2] at hbc
            simp at hbc
          · rw [if_neg h2] at hbc
            have hxz : ¬ x.toNat < z.toNat := by omega
            rw [if_neg hxz]
            by_cases h3 : z.toNat < x.toNat
            · rw [if_pos h3]
            · rw [if_neg h3]
              have hyx : ¬ y.toNat < x.toNat := by omega
              have hzy : ¬ z.toNat < y.toNat := by omega
              rw [if_neg hyx] at hab
              rw [if_neg hzy] at hbc
              exact ih ys zs hab hbc

theorem charListLt_total_eq (a : List Char) :
    ∀ b, charListLt a b = false → charListLt b a = false → a = b := by
  induction a with
  | nil =>
    intro b hab _
    cases b with
    | nil => rfl
    | cons y ys => rw [charListLt] at hab; simp at hab
  | cons x xs ih =>
    intro b hab hba
    cases b with
    | nil => rw [charListLt] at hba; simp at hba
    | cons y ys =>
      rw [charListLt] at hab hba
      by_cases h1 : x.toNat < y.toNat
      · rw [if_pos h1] at hab
        simp at hab
      · by_cases h2 : y.toNat < x.toNat
        · rw [if_pos h2] at hba
          simp at hba
        · rw [if_neg h1, if_neg h2] at hab
          rw [if_neg h2, if_neg h1] at hba
          have hxy : x = y := char_toNat_inj (by omega)
          rw [hxy, ih ys hab hba]

theorem strLt_asymm (a b : String) (h : strLt a b = true) : strLt b a = false :=
  charListLt_asymm a.data b.data h

theorem strLt_trans_false (a b c : String) (hab : strLt a b = false)
    (hbc : strLt b c = false) : strLt a c = false :=
  charListLt_trans_false a.data b.data c.data hab hbc

theorem strLt_total (a b : String) (hab : strLt a b = false)
    (hba : strLt b a = false) : a = b :=
  string_data_eq a b (charListLt_total_eq a.data b.data hab hba)

/-! ## Sorting lemmas -/

theorem insertAsc_perm (x : String) (l : List String) :
    List.Perm (insertAsc x l) (x :: l) := by
  induction l with
  | nil => exact List.Perm.refl _
  | cons y ys ih =>
    rw [insertAsc]
    by_cases hc : strLt y x = true
    · rw [if_pos hc]
      exact (ih.cons y).trans (List.Perm.swap x y ys)
    · rw [if_neg hc]

theorem sortAsc_perm (l : List String) : List.Perm (sortAsc l) l := by
  induction l with
  | nil => exact List.Perm.refl _
  | cons x xs ih =>
    exact (insertAsc_perm x (sortAsc xs)).trans (ih.cons x)

theorem insertDesc_perm (x : String × String) (l : List (String × String)) :
    List.Perm (insertDesc x l) (x :: l) := by
  induction l with
  | nil => exact List.Perm.refl _
  | cons y ys ih =>
    rw [insertDesc]
    by_cases hc : strLt x.1 y.1 = true
    · rw [if_pos hc]
      exact (ih.cons y).trans (List.Perm.swap x y ys)
    · rw [if_neg hc]

theorem sortDesc_perm (l : List (String × String)) : List.Perm (sortDesc l) l := by
  induction l with
  | nil => exact List.Perm.refl _
  | cons x xs ih =>
    exact (insertDesc_perm x (sortDesc xs)).trans (ih.cons x)

theorem insertDesc_sorted (x : String × String) (l : List (String × String))
    (h : l.Pairwise (fun a b => strLt a.1 b.1 = false)) :
    (insertDesc x l).Pairwise (fun a b => strLt a.1 b.1 = false) := by
  induction l with
  | nil => simp [insertDesc]
  | cons y ys ih =>
    rw [insertDesc]
    obtain ⟨hy, hys⟩ := List.pairwise_cons.mp h
    by_cases hc : strLt x.1 y.1 = true
    · rw [if_pos hc]
      apply List.pairwise_cons.mpr
      refine ⟨?_, ih hys⟩
      intro z hz
      rcases List.mem_cons.mp ((insertDesc_perm x ys).mem_iff.mp hz) with hzx | hzy
      · rw [hzx]
        exact strLt_asymm _ _ hc
      · exact hy z hzy
    · have hcf : strLt x.1 y.1 = false := by
        cases hcc : strLt x.1 y.1 with
        | true => exact absurd hcc hc
        | false => rfl
      rw [if_neg hc]
      apply List.pairwise_cons.mpr
      refine ⟨?_, h⟩
      intro z hz
      rcases List.mem_cons.mp hz with hzy | hzys
      · rw [hzy]
        exact hcf
      · exact strLt_trans_false _ _ _ hcf (hy z hzys)

theorem sortDesc_sorted (l : List (String × String)) :
    (sortDesc l).Pairwise (fun a b => strLt a.1 b.1 = false) := by
  induction l with
  | nil => simp [sortDesc]
  | cons x xs ih => exact insertDesc_sorted x (sortDesc xs) ih

/-! ## Dict-building lemmas -/

theorem assocSet_append (m : List (String × String)) (k v : String)
    (h : k ∉ m.map Prod.fst) : assocSet m k v = m ++ [(k, v)] := by
  induction m with
  | nil => rfl
  | cons p ps ih =>
    obtain ⟨pk, pv⟩ := p
    simp only [List.map_cons, List.mem_cons] at h
    push_neg at h
    obtain ⟨h1, h2⟩ := h
    rw [assocSet, if_neg (fun he => h1 he.symm), List.cons_append]
    exact congrArg _ (ih h2)

theorem daysFold_map (path : String → String) (files : List String) :
    ∀ acc : List (String × String),
      (acc.map Prod.fst ++ files.map dayKeyOf).Nodup →
      files.foldl (fun m p => assocSet m (dayKeyOf p) (path p)) acc
        = acc ++ files.map (fun p => (dayKeyOf p, path p)) := by
  induction files with
  | nil => intro acc _; simp
  | cons f fs ih =>
    intro acc h
    rw [List.foldl_cons]
    have hk : dayKeyOf f ∉ acc.map Prod.fst := by
      intro hmem
      rw [List.nodup_append] at h
      exact h.2.2 hmem (List.mem_cons_self _ _)
    rw [assocSet_append acc (dayKeyOf f) (path f) hk]
    have h2 : ((acc ++ [(dayKeyOf f, path f)]).map Prod.fst ++ fs.map dayKeyOf).Nodup := by
      simpa [List.map_append, List.append_assoc] using h
    rw [ih _ h2]
    simp [List.append_assoc]

theorem month_manifest_days_eq (dt : Date) (listing : List String)
    (hkeys : ((monthGlob listing).map dayKeyOf).Nodup) :
    (update_month_manifest dt listing).days
      = sortDesc ((monthGlob listing).map
          (fun p => (dayKeyOf p, monthDirString dt ++ "/" ++ p))) := by
  show sortDesc ((monthGlob listing).foldl
      (fun m p => assocSet m (dayKeyOf p) (monthDirString dt ++ "/" ++ p)) []) = _
  rw [daysFold_map (fun p => monthDirString dt ++ "/" ++ p) (monthGlob listing) []
      (by simpa using hkeys)]
  rw [List.nil_append]

/-- C8: for any set of files under one month directory whose derived day
keys are distinct (as they are for genuine Daily Files `DD-MM.json`),
`rebuild_month` (`update_month_manifest`) produces a mapping whose keys are
exactly the day keys of the `*.json` files present minus the manifest
itself, each key mapped to that file's path, ordered strictly descending by
day-key string. -/
theorem rebuild_month_spec (dt : Date) (listing : List String)
    (hkeys : ((monthGlob listing).map dayKeyOf).Nodup) :
    (∀ k, k ∈ (update_month_manifest dt listing).days.map Prod.fst ↔
        k ∈ (listing.filter (fun n => isJsonName n && n != "month_manifest.json")).map dayKeyOf) ∧
    (∀ p ∈ listing, (isJsonName p && p != "month_manifest.json") = true →
        (dayKeyOf p, monthDirString dt ++ "/" ++ p) ∈ (update_month_manifest dt listing).days) ∧
    ((update_month_manifest dt listing).days.map Prod.fst).Pairwise
      (fun a b => strLt b a = true) := by
  have hdays := month_manifest_days_eq dt listing hkeys
  have hperm : List.Perm (update_month_manifest dt listing).days
      ((monthGlob listing).map (fun p => (dayKeyOf p, monthDirString dt ++ "/" ++ p))) := by
    rw [hdays]
    exact sortDesc_perm _
  have hglob : List.Perm (monthGlob listing)
      (listing.filter (fun n => isJsonName n && n != "month_manifest.json")) := by
    rw [monthGlob]
    exact (sortAsc_perm listing).filter _
  refine ⟨?_, ?_, ?_⟩
  · intro k
    constructor
    · intro hk
      rw [List.mem_map] at hk
      obtain ⟨pair, hpair, hfst⟩ := hk
      have hmem := hperm.subset hpair
      rw [List.mem_map] at hmem
      obtain ⟨p, hp, hpe⟩ := hmem
      rw [List.mem_map]
      refine ⟨p, hglob.subset hp, ?_⟩
      rw [← hfst, ← hpe]
    · intro hk
      rw [List.mem_map] at hk
      obtain ⟨p, hp, hpe⟩ := hk
      rw [List.mem_map]
      refine ⟨(dayKeyOf p, monthDirString dt ++ "/" ++ p), ?_, hpe⟩
      exact hperm.mem_iff.mpr (List.mem_map_of_mem _ (hglob.mem_iff.mpr hp))
  · intro p hp hpred
    have hf : p ∈ listing.filter (fun n => isJsonName n && n != "month_manifest.json") :=
      List.mem_filter.mpr ⟨hp, hpred⟩
    exact hperm.mem_iff.mpr (List.mem_map_of_mem _ (hglob.mem_iff.mpr hf))
  · have hsorted : (update_month_manifest dt listing).days.Pairwise
        (fun a b => strLt a.1 b.1 = false) := by
      rw [hdays]
      exact sortDesc_sorted _
    have hnd : ((update_month_manifest dt listing).days.map Prod.fst).Nodup := by
      refine (List.Perm.nodup_iff (hperm.map Prod.fst)).mpr ?_
      rw [List.map_map]
      exact hkeys
    have hnd2 : (update_month_manifest dt listing).days.Pairwise
        (fun a b => a.1 ≠ b.1) := List.pairwise_map.mp hnd
    rw [List.pairwise_map]
    refine (hsorted.and hnd2).imp ?_
    intro a b hab
    cases hba : strLt b.1 a.1 with
    | true => rfl
    | false => exact absurd (strLt_total a.1 b.1 hab.1 hba) hab.2

/-- C8 witness: a month directory holding two daily files, the manifest
itself and a stray non-JSON file. -/
theorem rebuild_month_spec_witness :
    ((monthGlob ["03-05.json", "month_manifest.json", "12-05.json", "notes"]).map dayKeyOf).Nodup ∧
    (dayKeyOf "03-05.json", monthDirString ⟨2025, 5, 3⟩ ++ "/" ++ "03-05.json")
      ∈ (update_month_manifest ⟨2025, 5, 3⟩
          ["03-05.json", "month_manifest.json", "12-05.json", "notes"]).days :=
  ⟨by decide,
   (rebuild_month_spec ⟨2025, 5, 3⟩
      ["03-05.json", "month_manifest.json", "12-05.json", "notes"] (by decide)).2.1
      "03-05.json" (by decide) (by decide)⟩

end BotSite
